import Mathlib

/-!
Shallow embedding of the authenticated HTTP access core of the
Alternatives.PE SDK (altpe_sdk): the JSON value model used by the
diagnostic logger, the redaction pass, the response classifier /
error mapper, the token manager, the pagination parameter shaping of
the resource methods, and an interleaving model of the double-checked
token acquisition under concurrent callers.
-/

namespace AltPE

/-- JSON-like values: the shape of query params, request bodies,
headers and decoded response bodies as they flow through
`BaseHTTPClient._redact` and `BaseHTTPClient._build_log_entry`. -/
inductive JVal where
  | str (s : String)
  | num (n : Int)
  | bool (b : Bool)
  | null
  | arr (xs : List JVal)
  | obj (fields : List (String × JVal))

/-- The sensitive key set of `BaseHTTPClient._redact`
(`{"authorization", "client_secret", "client_id", "token"}`). -/
def sensitiveKeys : List String :=
  ["authorization", "client_secret", "client_id", "token"]

/-- Python `str.lower()` (`k.lower()` in `_redact`), modelled over the
character data by structural recursion so that proofs can evaluate it
(`String.toLower` is defined by well-founded recursion and does not
reduce); it agrees with it on the ASCII keys involved. -/
def pyLower (s : String) : String :=
  ⟨s.data.map Char.toLower⟩

mutual

/-- Embeds `BaseHTTPClient._redact`: on a dict, replace the value of any
key whose lowercase form is sensitive by the marker and recurse into the
other values; on a list, map; otherwise identity. -/
def _redact : JVal → JVal
  | .str s => .str s
  | .num n => .num n
  | .bool b => .bool b
  | .null => .null
  | .arr xs => .arr (redactList xs)
  | .obj fs => .obj (redactFields fs)

/-- `_redact` mapped over a JSON array (the list branch of `_redact`). -/
def redactList : List JVal → List JVal
  | [] => []
  | x :: xs => _redact x :: redactList xs

/-- `_redact` over the entries of a JSON object (the dict comprehension
branch of `_redact`). -/
def redactFields : List (String × JVal) → List (String × JVal)
  | [] => []
  | (k, v) :: fs =>
      (if pyLower k ∈ sensitiveKeys then (k, .str "***REDACTED***")
       else (k, _redact v)) :: redactFields fs

end

mutual

/-- Checking apparatus (not from the source): a value is sensitive-free
when, in every object anywhere inside it, every entry whose lowercase key
is sensitive carries exactly the redaction marker. -/
def sensFree : JVal → Bool
  | .str _ => true
  | .num _ => true
  | .bool _ => true
  | .null => true
  | .arr xs => sensFreeList xs
  | .obj fs => sensFreeFields fs

/-- `sensFree` over a JSON array. -/
def sensFreeList : List JVal → Bool
  | [] => true
  | x :: xs => sensFree x && sensFreeList xs

/-- `sensFree` over the entries of a JSON object. -/
def sensFreeFields : List (String × JVal) → Bool
  | [] => true
  | (k, v) :: fs =>
      (if pyLower k ∈ sensitiveKeys then
        (match v with
         | .str s => s == "***REDACTED***"
         | _ => false)
       else sensFree v) && sensFreeFields fs

end

/-- Checking apparatus: Boolean test that a list of characters occurs as
a prefix of another. -/
def prefixOfL : List Char → List Char → Bool
  | [], _ => true
  | _ :: _, [] => false
  | a :: as, b :: bs => a == b && prefixOfL as bs

/-- Checking apparatus: Boolean test that `needle` occurs as a contiguous
sublist of `hay`. -/
def containsL (needle : List Char) : List Char → Bool
  | [] => prefixOfL needle []
  | b :: bs => prefixOfL needle (b :: bs) || containsL needle bs

mutual

/-- Checking apparatus: does the character sequence `needle` occur
anywhere in a JSON serialization of the value (string leaves, object
keys, or the fixed renderings of numbers, booleans and null)? -/
def occursIn (needle : List Char) : JVal → Bool
  | .str s => containsL needle s.data
  | .num n => containsL needle (toString n).data
  | .bool b => containsL needle (toString b).data
  | .null => containsL needle "null".data
  | .arr xs => occursInList needle xs
  | .obj fs => occursInFields needle fs

/-- `occursIn` over a JSON array. -/
def occursInList (needle : List Char) : List JVal → Bool
  | [] => false
  | x :: xs => occursIn needle x || occursInList needle xs

/-- `occursIn` over the entries of a JSON object (keys included). -/
def occursInFields (needle : List Char) : List (String × JVal) → Bool
  | [] => false
  | (k, v) :: fs =>
      containsL needle k.data || occursIn needle v || occursInFields needle fs

end

/-! ## HTTP responses and the response classifier (`http_client.py`) -/

/-- An httpx response as seen by `BaseHTTPClient._handle_response` and
`BaseHTTPClient._build_log_entry`: its status code, the result of
`response.json()` (`none` when the body is not decodable JSON), and the
raw body text `response.text`. -/
structure HttpResponse where
  status_code : Nat
  jsonBody : Option JVal
  text : String

/-- httpx `Response.is_success`: status in the 2xx range. -/
def isSuccess (status : Nat) : Bool :=
  200 ≤ status && status < 300

/-- The `errors` field of the pydantic `ErrorResponse` model
(`models.py`): a string or a list of strings. -/
inductive ErrorsVal where
  | str (s : String)
  | list (xs : List String)
deriving DecidableEq, Repr

/-- The pydantic `ErrorResponse` model (`models.py`): required `errors`
(str or list of str), optional `message` (str or None, default None);
extra body keys are ignored (`BaseApiModel` has `extra="ignore"`). -/
structure ErrorResponse where
  errors : ErrorsVal
  message : Option String
deriving DecidableEq, Repr

/-- Decode a list of JSON values as a list of strings, failing if any
element is not a string (pydantic v2 does not coerce into `str`). -/
def allStrings : List JVal → Option (List String)
  | [] => some []
  | .str s :: rest => (allStrings rest).map (s :: ·)
  | _ :: _ => none

/-- Decode a JSON value as the `errors` field of `ErrorResponse`. -/
def decodeErrorsVal : JVal → Option ErrorsVal
  | .str s => some (.str s)
  | .arr xs => (allStrings xs).map ErrorsVal.list
  | _ => none

/-- Embeds `ErrorResponse(**response.json())` as performed by
`_handle_response`: fails (returns `none`, the `except` path) when the
body is not decodable JSON, is not an object, lacks an `errors` key of
the right shape, or has a `message` key that is neither a string nor
null. -/
def decodeErrorResponse : Option JVal → Option ErrorResponse
  | some (.obj fs) =>
      match List.lookup "errors" fs with
      | some ev =>
          match decodeErrorsVal ev with
          | some e =>
              match List.lookup "message" fs with
              | none => some ⟨e, none⟩
              | some .null => some ⟨e, none⟩
              | some (.str m) => some ⟨e, some m⟩
              | some _ => none
          | none => none
      | none => none
  | _ => none

/-- Python `str()` applied to the `errors` field (`str(error_response.errors)`):
a string renders as itself; a list renders with brackets, commas and
single quotes. -/
def pyStrOfErrors : ErrorsVal → String
  | .str s => s
  | .list xs =>
      "[" ++ String.intercalate ", " (xs.map (fun s => "\x27" ++ s ++ "\x27")) ++ "]"

/-- The message-extraction prefix of `_handle_response`: decode the body
as `ErrorResponse` and take `message or str(errors)` (Python truthiness:
an empty-string message also falls back); on any decode failure take
`response.text or "HTTP <code>"` (an empty text falls back to the
synthesized string). -/
def extractMessage (r : HttpResponse) : String :=
  match decodeErrorResponse r.jsonBody with
  | some e =>
      match e.message with
      | some m => if m = "" then pyStrOfErrors e.errors else m
      | none => pyStrOfErrors e.errors
  | none =>
      if r.text = "" then "HTTP " ++ toString r.status_code else r.text

/-- The kind (Python class) of a raised SDK exception (`exceptions.py`). -/
inductive ErrKind where
  | altpe
  | authentication
  | notFound
  | validation
  | rateLimit
  | server
deriving DecidableEq, Repr

/-- The dynamic value passed as the `errors` argument of
`ValidationError.__init__` (typed `dict | None` in the source, but
`_handle_response` passes the integer status code). -/
inductive ErrorsArg where
  | int (n : Nat)
  | dict (d : JVal)

/-- A constructed SDK exception object with the fields set by the
`exceptions.py` constructors: `message`, `status_code` (from
`AltPEError.__init__`) and `errors` (set only by
`ValidationError.__init__`). -/
structure SDKError where
  kind : ErrKind
  message : String
  status_code : Option Nat
  errors : Option ErrorsArg

/-- `AltPEError(message, status_code)`. -/
def AltPEError.make (message : String) (status_code : Option Nat) : SDKError :=
  ⟨.altpe, message, status_code, none⟩

/-- `AuthenticationError(message, status_code)` (inherits
`AltPEError.__init__`). -/
def AuthenticationError.make (message : String) (status_code : Option Nat) : SDKError :=
  ⟨.authentication, message, status_code, none⟩

/-- `NotFoundError(message, status_code)` (inherits `AltPEError.__init__`). -/
def NotFoundError.make (message : String) (status_code : Option Nat) : SDKError :=
  ⟨.notFound, message, status_code, none⟩

/-- `ValidationError(message, errors)`: its `__init__` calls
`super().__init__(message)`, so `status_code` is always `None`, and
stores the second positional argument in `self.errors`. -/
def ValidationError.make (message : String) (errors : Option ErrorsArg) : SDKError :=
  ⟨.validation, message, none, errors⟩

/-- `RateLimitError(message, status_code)` (inherits `AltPEError.__init__`). -/
def RateLimitError.make (message : String) (status_code : Option Nat) : SDKError :=
  ⟨.rateLimit, message, status_code, none⟩

/-- `ServerError(message, status_code)` (inherits `AltPEError.__init__`). -/
def ServerError.make (message : String) (status_code : Option Nat) : SDKError :=
  ⟨.server, message, status_code, none⟩

/-- Embeds `BaseHTTPClient._handle_response`, threading the mutable
`self._token` explicitly: returns the new token cache state and either
the successful response or the raised exception.  On 401 the token is
cleared before the `AuthenticationError` is raised; every other branch
leaves the token untouched. -/
def _handle_response (token : Option String) (r : HttpResponse) :
    Option String × Except SDKError HttpResponse :=
  if isSuccess r.status_code then
    (token, .ok r)
  else
    let message := extractMessage r
    if r.status_code == 401 then
      (none, .error (AuthenticationError.make message (some r.status_code)))
    else if r.status_code == 404 then
      (token, .error (NotFoundError.make message (some r.status_code)))
    else if r.status_code == 422 then
      (token, .error (ValidationError.make message (some (.int r.status_code))))
    else if r.status_code == 429 then
      (token, .error (RateLimitError.make message (some r.status_code)))
    else if 500 ≤ r.status_code then
      (token, .error (ServerError.make message (some r.status_code)))
    else
      (token, .error (AltPEError.make message (some r.status_code)))

/-! ## Diagnostic log entries (`BaseHTTPClient._build_log_entry`) -/

/-- Embeds `BaseHTTPClient._build_log_entry`.  The timestamp is a
parameter (the source reads the wall clock).  `params or {}` /
`data or {}` / `headers or {}` become `Option.getD` with the empty
object (a `None` and an empty dict produce the same value).  The
response part carries the status code, the redacted decoded JSON when
the body decodes (text is then null), and otherwise the raw undecoded
text (json is then null). -/
def _build_log_entry (timestamp method url : String)
    (params data headers : Option JVal) (response : HttpResponse) : JVal :=
  .obj [ ("timestamp", .str timestamp),
         ("method", .str method),
         ("url", .str url),
         ("request", .obj
           [ ("params", _redact (params.getD (.obj []))),
             ("data", _redact (data.getD (.obj []))),
             ("headers", _redact (headers.getD (.obj []))) ]),
         ("response", .obj
           [ ("status_code", .num response.status_code),
             ("json",
               match response.jsonBody with
               | some j => _redact j
               | none => .null),
             ("text",
               match response.jsonBody with
               | some _ => .null
               | none => .str response.text) ]) ]

/-! ## Token manager (`HTTPClient._get_token` / `SyncHTTPClient._get_token`) -/

/-- The response of `POST /api/v2/oauth/token` as consumed by
`_get_token`: status code, the `token` field of the body when the body
validates as the pydantic `TokenResponse` model (`none` otherwise), and
the raw body text. -/
structure TokenEndpointResp where
  status_code : Nat
  tokenField : Option String
  text : String

/-- A failure of `_get_token`: either the `AuthenticationError` it
raises on a non-200 exchange status, or the pydantic validation error
that `TokenResponse(**response.json())` raises on a 200 response whose
body does not carry a string `token` field. -/
inductive TokenFailure where
  | auth (e : SDKError)
  | decodeFailure

/-- Python truthiness of `self._token` (`if self._token:`): false for
`None` and for the empty string. -/
def pyTruthy : Option String → Bool
  | none => false
  | some s => !(s == "")

/-- The outcome of one sequential `_get_token` call: the token cache
after the call, the returned token or raised failure, the number of
credential-exchange network calls performed (0 or 1), and the number of
diagnostic log records appended (0 or 1). -/
structure GetTokenResult where
  newToken : Option String
  result : Except TokenFailure String
  calls : Nat
  logs : Nat

/-- The locked section of `_get_token` once the cached token was found
falsy: one POST to the token endpoint; on 200 parse `TokenResponse`,
cache the token, append a log record if logging is enabled, and return
the token; on 422 raise `AuthenticationError("Invalid client
credentials")`; on any other status raise
`AuthenticationError("Authentication failed: " + response.text)`.
Identical in `HTTPClient._get_token` and `SyncHTTPClient._get_token`. -/
def fetchToken (cached : Option String) (resp : TokenEndpointResp)
    (logEnabled : Bool) : GetTokenResult :=
  if resp.status_code == 200 then
    match resp.tokenField with
    | some t => ⟨some t, .ok t, 1, if logEnabled then 1 else 0⟩
    | none => ⟨cached, .error .decodeFailure, 1, 0⟩
  else if resp.status_code == 422 then
    ⟨cached, .error (.auth (AuthenticationError.make "Invalid client credentials" none)), 1, 0⟩
  else
    ⟨cached,
     .error (.auth (AuthenticationError.make ("Authentication failed: " ++ resp.text) none)),
     1, 0⟩

/-- Sequential (single-caller) embedding of `_get_token`: if the cached
token is truthy return it with no network call and no log record;
otherwise (the in-lock re-check sees the same falsy cache) run the
exchange.  `resp` is the response the token endpoint would return. -/
def _get_token (cached : Option String) (resp : TokenEndpointResp)
    (logEnabled : Bool) : GetTokenResult :=
  if pyTruthy cached then
    ⟨cached, .ok (cached.getD ""), 0, 0⟩
  else
    fetchToken cached resp logEnabled

/-! ## Resource methods (`client.py` / `_sync_client.py`) -/

/-- The `CapitalProviderCategory` enum (`enums.py`). -/
inductive CapitalProviderCategory where
  | fund_manager
  | limited_partner
  | family_office

/-- The wire value (`.value`) of a `CapitalProviderCategory`. -/
def CapitalProviderCategory.value : CapitalProviderCategory → String
  | .fund_manager => "fund-manager"
  | .limited_partner => "limited-partner"
  | .family_office => "family-office"

/-- `category.value if hasattr(category, "value") else category`: the
category argument is an enum member or a plain string. -/
def categoryParam : CapitalProviderCategory ⊕ String → String
  | .inl c => c.value
  | .inr s => s

namespace AsyncAlternativesPE

/-- Embeds `AsyncAlternativesPE.get_capital_provider_by_id`
(`client.py`): build `params = {"category": ...}`, issue exactly one GET
to `/api/v2/capital-providers/<id>/` and route the response through the
classifier.  `server` gives the response the server returns for the sent
category value.  The first component counts network attempts; the body
issues a single request with no retry and no exception handling (the
final pydantic decode of a successful body is outside this claim's
scope). -/
def get_capital_provider_by_id (server : String → HttpResponse)
    (category : CapitalProviderCategory ⊕ String) :
    Nat × Except SDKError HttpResponse :=
  let response := server (categoryParam category)
  (1, (_handle_response none response).2)

/-- The `limit` / `offset` entries of the `params` dict built by
`AsyncAlternativesPE.get_companies` (`client.py`):
`{"limit": min(limit, 100), "offset": offset}`. -/
def get_companies_page (limit offset : Int) : Int × Int :=
  (min limit 100, offset)

/-- The `limit` / `offset` entries of the `params` dict built by
`AsyncAlternativesPE.get_funds` (`client.py`):
`{"limit": min(limit, 100), "offset": offset}`. -/
def get_funds_page (limit offset : Int) : Int × Int :=
  (min limit 100, offset)

end AsyncAlternativesPE

namespace AlternativesPE

/-- Embeds `AlternativesPE.get_capital_provider_by_id`
(`_sync_client.py`), identical in structure to the async version: one
GET with the category param, no retry. -/
def get_capital_provider_by_id (server : String → HttpResponse)
    (category : CapitalProviderCategory ⊕ String) :
    Nat × Except SDKError HttpResponse :=
  let response := server (categoryParam category)
  (1, (_handle_response none response).2)

/-- The `limit` / `offset` entries of the `params` dict built by
`AlternativesPE.get_companies` (`_sync_client.py`):
`{"limit": limit, "offset": offset}` — the sync client passes the limit
through without the `min(limit, 100)` clamp. -/
def get_companies_page (limit offset : Int) : Int × Int :=
  (limit, offset)

/-- The `limit` / `offset` entries of the `params` dict built by
`AlternativesPE.get_funds` (`_sync_client.py`):
`{"limit": min(limit, 100), "offset": offset}` — the only sync list
method that clamps. -/
def get_funds_page (limit offset : Int) : Int × Int :=
  (min limit 100, offset)

end AlternativesPE

/-! ## Interleaving model of concurrent `_get_token` callers

A step relation over the control points of `_get_token` (identical in
the async and sync clients), for `n` concurrent callers sharing one
token cache, one mutual-exclusion lock and one exchange counter.  `T` is
the token string the credential-exchange endpoint returns. -/

namespace TokSys

/-- The control point of one caller inside `_get_token`:
before the unlocked fast check (`start`); after a falsy fast check,
waiting on `self._token_lock` (`waiting`); holding the lock, before the
double-checked re-read (`locked`); holding the lock, having performed
the exchange POST (`haveResp`); holding the lock, having assigned
`self._token` (`wroteTok`); returned with value `r` (`done r`). -/
inductive CState where
  | start
  | waiting
  | locked
  | haveResp
  | wroteTok
  | done (r : String)
deriving DecidableEq, Repr

/-- Does a caller at this control point hold the lock?  The lock is held
from a successful acquire until the `with` block is exited (at a re-check
hit or at the final return). -/
def inLock : CState → Bool
  | .locked => true
  | .haveResp => true
  | .wroteTok => true
  | _ => false

/-- The shared state: token cache, per-caller control points, and the
number of credential-exchange network calls performed so far. -/
structure Sys (n : Nat) where
  tok : Option String
  cs : Fin n → CState
  exch : Nat

/-- One interleaving step of some caller `i`.  The exchange endpoint
answers 200 with token `T` (the claim's scenario). -/
inductive Step (n : Nat) (T : String) : Sys n → Sys n → Prop where
  | fastHit (s : Sys n) (i : Fin n) (t : String) :
      s.cs i = .start → s.tok = some t → t ≠ "" →
      Step n T s ⟨s.tok, Function.update s.cs i (.done t), s.exch⟩
  | fastMiss (s : Sys n) (i : Fin n) :
      s.cs i = .start → pyTruthy s.tok = false →
      Step n T s ⟨s.tok, Function.update s.cs i .waiting, s.exch⟩
  | acquire (s : Sys n) (i : Fin n) :
      s.cs i = .waiting → (∀ j, inLock (s.cs j) = false) →
      Step n T s ⟨s.tok, Function.update s.cs i .locked, s.exch⟩
  | recheckHit (s : Sys n) (i : Fin n) (t : String) :
      s.cs i = .locked → s.tok = some t → t ≠ "" →
      Step n T s ⟨s.tok, Function.update s.cs i (.done t), s.exch⟩
  | recheckMiss (s : Sys n) (i : Fin n) :
      s.cs i = .locked → pyTruthy s.tok = false →
      Step n T s ⟨s.tok, Function.update s.cs i .haveResp, s.exch + 1⟩
  | writeTok (s : Sys n) (i : Fin n) :
      s.cs i = .haveResp →
      Step n T s ⟨some T, Function.update s.cs i .wroteTok, s.exch⟩
  | finish (s : Sys n) (i : Fin n) (t : String) :
      s.cs i = .wroteTok → s.tok = some t →
      Step n T s ⟨s.tok, Function.update s.cs i (.done t), s.exch⟩

/-- The initial state: no cached token, every caller at entry, no
exchange performed. -/
def start (n : Nat) : Sys n := ⟨none, fun _ => .start, 0⟩

/-- Reachability from the initial state by interleaved steps. -/
def Reachable (n : Nat) (T : String) (s : Sys n) : Prop :=
  Relation.ReflTransGen (Step n T) (start n) s

/-- The inductive invariant of the system: the lock is held by at most
one caller; the cache only ever holds `T`; while the cache is empty no
caller has written or returned; every returned value is `T`; at most one
exchange ever happens; and while no exchange happened the cache is empty
and nobody is past the exchange point. -/
structure Inv (n : Nat) (T : String) (s : Sys n) : Prop where
  mutex : ∀ i j, inLock (s.cs i) = true → inLock (s.cs j) = true → i = j
  tokOK : s.tok = none ∨ s.tok = some T
  noneNoPost : s.tok = none → ∀ i,
    s.cs i = .start ∨ s.cs i = .waiting ∨ s.cs i = .locked ∨ s.cs i = .haveResp
  doneT : ∀ i t, s.cs i = .done t → t = T
  exchLe : s.exch ≤ 1
  exchZero : s.exch = 0 →
    s.tok = none ∧ ∀ i, s.cs i ≠ .haveResp ∧ s.cs i ≠ .wroteTok
  exchPos : s.exch ≠ 0 → s.tok = some T ∨ ∃ i, s.cs i = .haveResp

/-- The initial state satisfies the invariant. -/
theorem inv_start (n : Nat) (T : String) : Inv n T (start n) := by
  refine ⟨?_, ?_, ?_, ?_, ?_, ?_, ?_⟩
  · intro i j hi _
    simp [start, inLock] at hi
  · exact Or.inl rfl
  · intro _ i
    exact Or.inl rfl
  · intro i t h
    simp [start] at h
  · exact Nat.zero_le 1
  · intro _
    exact ⟨rfl, fun i => by simp [start]⟩
  · intro h
    exact absurd rfl h

/-- Each interleaving step preserves the invariant (for a nonempty
exchange token `T`). -/
theorem inv_step {n : Nat} {T : String} {s s' : Sys n} (hT : T ≠ "")
    (hs : Inv n T s) (h : Step n T s s') : Inv n T s' := by
  cases h with
  | fastHit i t hcs htok ht =>
    have htT : t = T := by
      rcases hs.tokOK with h0 | h0
      · rw [htok] at h0; cases h0
      · rw [htok] at h0; exact Option.some_injective _ h0
    refine ⟨?_, hs.tokOK, ?_, ?_, hs.exchLe, ?_, ?_⟩
    · intro a b ha hb
      simp only [Function.update_apply] at ha hb
      by_cases hai : a = i
      · rw [if_pos hai] at ha; simp [inLock] at ha
      · rw [if_neg hai] at ha
        by_cases hbi : b = i
        · rw [if_pos hbi] at hb; simp [inLock] at hb
        · rw [if_neg hbi] at hb
          exact hs.mutex a b ha hb
    · intro h0
      simp only at h0
      rw [htok] at h0; cases h0
    · intro j u hj
      simp only [Function.update_apply] at hj
      by_cases hji : j = i
      · rw [if_pos hji] at hj
        cases hj
        exact htT
      · rw [if_neg hji] at hj
        exact hs.doneT j u hj
    · intro h0
      obtain ⟨htn, _⟩ := hs.exchZero h0
      rw [htn] at htok; cases htok
    · intro hne
      rcases hs.exchPos hne with h0 | ⟨j, hj⟩
      · exact Or.inl h0
      · refine Or.inr ⟨j, ?_⟩
        have hji : j ≠ i := by
          intro he; rw [he, hcs] at hj; cases hj
        simpa [Function.update_apply, if_neg hji] using hj
  | fastMiss i hcs htr =>
    refine ⟨?_, hs.tokOK, ?_, ?_, hs.exchLe, ?_, ?_⟩
    · intro a b ha hb
      simp only [Function.update_apply] at ha hb
      by_cases hai : a = i
      · rw [if_pos hai] at ha; simp [inLock] at ha
      · rw [if_neg hai] at ha
        by_cases hbi : b = i
        · rw [if_pos hbi] at hb; simp [inLock] at hb
        · rw [if_neg hbi] at hb
          exact hs.mutex a b ha hb
    · intro h0 j
      simp only [Function.update_apply]
      by_cases hji : j = i
      · rw [if_pos hji]; exact Or.inr (Or.inl rfl)
      · rw [if_neg hji]; exact hs.noneNoPost h0 j
    · intro j u hj
      simp only [Function.update_apply] at hj
      by_cases hji : j = i
      · rw [if_pos hji] at hj; cases hj
      · rw [if_neg hji] at hj
        exact hs.doneT j u hj
    · intro h0
      obtain ⟨htn, hpost⟩ := hs.exchZero h0
      refine ⟨htn, fun j => ?_⟩
      simp only [Function.update_apply]
      by_cases hji : j = i
      · rw [if_pos hji]; exact ⟨by simp, by simp⟩
      · rw [if_neg hji]; exact hpost j
    · intro hne
      rcases hs.exchPos hne with h0 | ⟨j, hj⟩
      · exact Or.inl h0
      · refine Or.inr ⟨j, ?_⟩
        have hji : j ≠ i := by
          intro he; rw [he, hcs] at hj; cases hj
        simpa [Function.update_apply, if_neg hji] using hj
  | acquire i hcs hfree =>
    refine ⟨?_, hs.tokOK, ?_, ?_, hs.exchLe, ?_, ?_⟩
    · intro a b ha hb
      simp only [Function.update_apply] at ha hb
      by_cases hai : a = i
      · by_cases hbi : b = i
        · rw [hai, hbi]
        · rw [if_neg hbi] at hb
          rw [hfree b] at hb; cases hb
      · rw [if_neg hai] at ha
        rw [hfree a] at ha; cases ha
    · intro h0 j
      simp only [Function.update_apply]
      by_cases hji : j = i
      · rw [if_pos hji]; exact Or.inr (Or.inr (Or.inl rfl))
      · rw [if_neg hji]; exact hs.noneNoPost h0 j
    · intro j u hj
      simp only [Function.update_apply] at hj
      by_cases hji : j = i
      · rw [if_pos hji] at hj; cases hj
      · rw [if_neg hji] at hj
        exact hs.doneT j u hj
    · intro h0
      obtain ⟨htn, hpost⟩ := hs.exchZero h0
      refine ⟨htn, fun j => ?_⟩
      simp only [Function.update_apply]
      by_cases hji : j = i
      · rw [if_pos hji]; exact ⟨by simp, by simp⟩
      · rw [if_neg hji]; exact hpost j
    · intro hne
      rcases hs.exchPos hne with h0 | ⟨j, hj⟩
      · exact Or.inl h0
      · refine Or.inr ⟨j, ?_⟩
        have hji : j ≠ i := by
          intro he; rw [he, hcs] at hj; cases hj
        simpa [Function.update_apply, if_neg hji] using hj
  | recheckHit i t hcs htok ht =>
    have htT : t = T := by
      rcases hs.tokOK with h0 | h0
      · rw [htok] at h0; cases h0
      · rw [htok] at h0; exact Option.some_injective _ h0
    refine ⟨?_, hs.tokOK, ?_, ?_, hs.exchLe, ?_, ?_⟩
    · intro a b ha hb
      simp only [Function.update_apply] at ha hb
      by_cases hai : a = i
      · rw [if_pos hai] at ha; simp [inLock] at ha
      · rw [if_neg hai] at ha
        by_cases hbi : b = i
        · rw [if_pos hbi] at hb; simp [inLock] at hb
        · rw [if_neg hbi] at hb
          exact hs.mutex a b ha hb
    · intro h0
      simp only at h0
      rw [htok] at h0; cases h0
    · intro j u hj
      simp only [Function.update_apply] at hj
      by_cases hji : j = i
      · rw [if_pos hji] at hj
        cases hj
        exact htT
      · rw [if_neg hji] at hj
        exact hs.doneT j u hj
    · intro h0
      obtain ⟨htn, _⟩ := hs.exchZero h0
      rw [htn] at htok; cases htok
    · intro hne
      rcases hs.exchPos hne with h0 | ⟨j, hj⟩
      · exact Or.inl h0
      · refine Or.inr ⟨j, ?_⟩
        have hji : j ≠ i := by
          intro he; rw [he, hcs] at hj; cases hj
        simpa [Function.update_apply, if_neg hji] using hj
  | recheckMiss i hcs htr =>
    have htn : s.tok = none := by
      rcases hs.tokOK with h0 | h0
      · exact h0
      · rw [h0] at htr
        simp [pyTruthy, hT] at htr
    have hz : s.exch = 0 := by
      by_contra hne
      rcases hs.exchPos hne with h0 | ⟨j, hj⟩
      · rw [htn] at h0; cases h0
      · have := hs.mutex i j (by rw [hcs]; rfl) (by rw [hj]; rfl)
        rw [← this, hcs] at hj; cases hj
    refine ⟨?_, hs.tokOK, ?_, ?_, ?_, ?_, ?_⟩
    · intro a b ha hb
      simp only [Function.update_apply] at ha hb
      have ha' : inLock (s.cs a) = true := by
        by_cases hai : a = i
        · rw [hai, hcs]; rfl
        · rw [if_neg hai] at ha; exact ha
      have hb' : inLock (s.cs b) = true := by
        by_cases hbi : b = i
        · rw [hbi, hcs]; rfl
        · rw [if_neg hbi] at hb; exact hb
      exact hs.mutex a b ha' hb'
    · intro h0 j
      simp only [Function.update_apply]
      by_cases hji : j = i
      · rw [if_pos hji]; exact Or.inr (Or.inr (Or.inr rfl))
      · rw [if_neg hji]; exact hs.noneNoPost h0 j
    · intro j u hj
      simp only [Function.update_apply] at hj
      by_cases hji : j = i
      · rw [if_pos hji] at hj; cases hj
      · rw [if_neg hji] at hj
        exact hs.doneT j u hj
    · simp only [hz]
      omega
    · intro h0
      simp only [hz] at h0
      omega
    · intro _
      exact Or.inr ⟨i, by simp [Function.update_apply]⟩
  | writeTok i hcs =>
    have hnz : s.exch ≠ 0 := by
      intro h0
      exact (hs.exchZero h0).2 i |>.1 hcs
    refine ⟨?_, Or.inr rfl, ?_, ?_, hs.exchLe, ?_, ?_⟩
    · intro a b ha hb
      simp only [Function.update_apply] at ha hb
      have ha' : inLock (s.cs a) = true := by
        by_cases hai : a = i
        · rw [hai, hcs]; rfl
        · rw [if_neg hai] at ha; exact ha
      have hb' : inLock (s.cs b) = true := by
        by_cases hbi : b = i
        · rw [hbi, hcs]; rfl
        · rw [if_neg hbi] at hb; exact hb
      exact hs.mutex a b ha' hb'
    · intro h0
      simp only at h0
      cases h0
    · intro j u hj
      simp only [Function.update_apply] at hj
      by_cases hji : j = i
      · rw [if_pos hji] at hj; cases hj
      · rw [if_neg hji] at hj
        exact hs.doneT j u hj
    · intro h0
      exact absurd h0 hnz
    · intro _
      exact Or.inl rfl
  | finish i t hcs htok =>
    have htT : t = T := by
      rcases hs.tokOK with h0 | h0
      · rw [htok] at h0; cases h0
      · rw [htok] at h0; exact Option.some_injective _ h0
    have hnz : s.exch ≠ 0 := by
      intro h0
      exact (hs.exchZero h0).2 i |>.2 hcs
    refine ⟨?_, hs.tokOK, ?_, ?_, hs.exchLe, ?_, ?_⟩
    · intro a b ha hb
      simp only [Function.update_apply] at ha hb
      by_cases hai : a = i
      · rw [if_pos hai] at ha; simp [inLock] at ha
      · rw [if_neg hai] at ha
        by_cases hbi : b = i
        · rw [if_pos hbi] at hb; simp [inLock] at hb
        · rw [if_neg hbi] at hb
          exact hs.mutex a b ha hb
    · intro h0
      simp only at h0
      rw [htok] at h0; cases h0
    · intro j u hj
      simp only [Function.update_apply] at hj
      by_cases hji : j = i
      · rw [if_pos hji] at hj
        cases hj
        exact htT
      · rw [if_neg hji] at hj
        exact hs.doneT j u hj
    · intro h0
      exact absurd h0 hnz
    · intro hne
      rcases hs.exchPos hne with h0 | ⟨j, hj⟩
      · exact Or.inl h0
      · refine Or.inr ⟨j, ?_⟩
        have hji : j ≠ i := by
          intro he; rw [he, hcs] at hj; cases hj
        simpa [Function.update_apply, if_neg hji] using hj

/-- Every reachable state satisfies the invariant. -/
theorem reach_inv {n : Nat} {T : String} (hT : T ≠ "") {s : Sys n}
    (h : Reachable n T s) : Inv n T s := by
  induction h with
  | refl => exact inv_start n T
  | tail _ hstep ih => exact inv_step hT ih hstep

/-- Two system states with equal components are equal. -/
theorem sys_ext {n : Nat} {s s' : Sys n} (ht : s.tok = s'.tok)
    (hc : ∀ i, s.cs i = s'.cs i) (he : s.exch = s'.exch) : s = s' := by
  cases s with
  | mk t c e =>
    cases s' with
    | mk t' c' e' =>
      simp only at ht hc he
      subst ht
      subst he
      have : c = c' := funext hc
      rw [this]

/-- Transport reachability along a componentwise state equality. -/
theorem reach_of_eq {n : Nat} {T : String} {s s' : Sys n}
    (h : Reachable n T s) (ht : s.tok = s'.tok)
    (hc : ∀ i, s.cs i = s'.cs i) (he : s.exch = s'.exch) :
    Reachable n T s' :=
  sys_ext ht hc he ▸ h

end TokSys

/-! ## Concrete fixtures used by counterexamples and witnesses -/

/-- A server for the capital-provider-by-id scenario of the spec: it
rejects category `"x"` with a 422 validation response and accepts every
other category value with a 200. -/
def c1server : String → HttpResponse := fun c =>
  if c == "x" then
    ⟨422, some (.obj [("errors", .str "invalid category"),
                      ("message", .str "Invalid category value")]), "invalid"⟩
  else
    ⟨200, some (.obj [("data", .str "provider")]), "ok"⟩

/-- A 422 response with a decodable structured error body. -/
def c2resp : HttpResponse :=
  ⟨422, some (.obj [("errors", .arr [.str "name is required"]),
                    ("message", .str "Validation failed")]), "raw-text"⟩

/-- The state of one `_get_token` caller that has performed the exchange
and the cache write but has not yet released the lock. -/
def c6state : TokSys.Sys 1 :=
  ⟨some "tok-w", fun _ => .wroteTok, 1⟩

/-- The final state of two concurrent `_get_token` callers racing from
an empty cache against an exchange endpoint returning token `"tok"`:
both returned `"tok"` after a single exchange. -/
def c7final : TokSys.Sys 2 :=
  ⟨some "tok", fun _ => .done "tok", 1⟩

/-! ## Helper lemmas -/

mutual

/-- After `_redact`, every sensitive key anywhere in the value carries
the redaction marker. -/
theorem sensFree_redact : ∀ v : JVal, sensFree (_redact v) = true
  | .str _ => rfl
  | .num _ => rfl
  | .bool _ => rfl
  | .null => rfl
  | .arr xs => by
      simp only [_redact, sensFree]
      exact sensFreeList_redactList xs
  | .obj fs => by
      simp only [_redact, sensFree]
      exact sensFreeFields_redactFields fs

/-- `sensFree_redact` for JSON arrays. -/
theorem sensFreeList_redactList : ∀ xs : List JVal, sensFreeList (redactList xs) = true
  | [] => rfl
  | x :: xs => by
      simp only [redactList, sensFreeList]
      rw [sensFree_redact x, sensFreeList_redactList xs]
      rfl

/-- `sensFree_redact` for JSON object entries. -/
theorem sensFreeFields_redactFields :
    ∀ fs : List (String × JVal), sensFreeFields (redactFields fs) = true
  | [] => rfl
  | (k, v) :: fs => by
      simp only [redactFields]
      by_cases hk : pyLower k ∈ sensitiveKeys
      · rw [if_pos hk]
        simp only [sensFreeFields]
        rw [if_pos hk, sensFreeFields_redactFields fs]
        rfl
      · rw [if_neg hk]
        simp only [sensFreeFields]
        rw [if_neg hk, sensFree_redact v, sensFreeFields_redactFields fs]
        rfl

end

/-- Every log entry built by `_build_log_entry` is sensitive-free: the
fixed entry keys are not sensitive, the request parts and the decoded
response JSON go through `_redact`, and the remaining leaves are plain
strings or numbers without object structure. -/
theorem sensFree_build_log_entry (ts m u : String) (p d h : Option JVal)
    (resp : HttpResponse) :
    sensFree (_build_log_entry ts m u p d h resp) = true := by
  obtain ⟨st, jb, tx⟩ := resp
  cases jb with
  | some j =>
    simp only [_build_log_entry, sensFree, sensFreeFields]
    rw [if_neg (by decide), if_neg (by decide), if_neg (by decide),
        if_neg (by decide), if_neg (by decide), if_neg (by decide),
        if_neg (by decide), if_neg (by decide), if_neg (by decide),
        if_neg (by decide), if_neg (by decide)]
    rw [sensFree_redact, sensFree_redact, sensFree_redact, sensFree_redact]
    rfl
  | none =>
    simp only [_build_log_entry, sensFree, sensFreeFields]
    rw [if_neg (by decide), if_neg (by decide), if_neg (by decide),
        if_neg (by decide), if_neg (by decide), if_neg (by decide),
        if_neg (by decide), if_neg (by decide), if_neg (by decide),
        if_neg (by decide), if_neg (by decide)]
    rw [sensFree_redact, sensFree_redact, sensFree_redact]
    rfl

/-! ## Claims -/

/-- C1 (counterexample): against a server that rejects category `"x"`
with 422 but accepts every other category, `get_capital_provider_by_id`
(async and sync alike) performs exactly one network attempt and raises
the `ValidationError` — it does not retry with a default category and
does not succeed in two attempts as claimed. -/
theorem c1_counterexample :
    AsyncAlternativesPE.get_capital_provider_by_id c1server (Sum.inr "x")
      = (1, .error (ValidationError.make "Invalid category value" (some (.int 422))))
    ∧ AlternativesPE.get_capital_provider_by_id c1server (Sum.inr "x")
      = (1, .error (ValidationError.make "Invalid category value" (some (.int 422))))
    ∧ (1 : Nat) ≠ 2 := by
  refine ⟨rfl, rfl, by decide⟩

/-- C1 (amended): `get_capital_provider_by_id` (sync and async) performs
exactly one network attempt per call for every server and category, and
when the server rejects the sent category with a 422 it propagates the
`ValidationError` unchanged — there is no retry with a default category. -/
theorem c1_no_retry (server : String → HttpResponse)
    (cat : CapitalProviderCategory ⊕ String) :
    (AsyncAlternativesPE.get_capital_provider_by_id server cat).1 = 1
    ∧ (AlternativesPE.get_capital_provider_by_id server cat).1 = 1
    ∧ ((server (categoryParam cat)).status_code = 422 →
        (AsyncAlternativesPE.get_capital_provider_by_id server cat).2
          = .error (ValidationError.make
              (extractMessage (server (categoryParam cat))) (some (.int 422)))
        ∧ (AlternativesPE.get_capital_provider_by_id server cat).2
          = .error (ValidationError.make
              (extractMessage (server (categoryParam cat))) (some (.int 422)))) := by
  refine ⟨rfl, rfl, fun h422 => ?_⟩
  constructor
  · simp only [AsyncAlternativesPE.get_capital_provider_by_id, _handle_response, h422]
    rfl
  · simp only [AlternativesPE.get_capital_provider_by_id, _handle_response, h422]
    rfl

/-- C1 (witness for the amended theorem at the concrete server of the
scenario). -/
theorem c1_no_retry_witness :
    (AsyncAlternativesPE.get_capital_provider_by_id c1server (Sum.inr "x")).1 = 1
    ∧ (AsyncAlternativesPE.get_capital_provider_by_id c1server (Sum.inr "x")).2
      = .error (ValidationError.make
          (extractMessage (c1server (categoryParam (Sum.inr "x")))) (some (.int 422))) := by
  have h := c1_no_retry c1server (Sum.inr "x")
  exact ⟨h.1, (h.2.2 (by rfl)).1⟩

/-- C2 (evaluation at the failing input): on a 422 response with a
decodable structured error body, `_handle_response` raises a
`ValidationError` whose `status_code` field is `None` — not 422 — and
whose `errors` field holds the integer status code 422 — not the parsed
error body — because `_handle_response` passes `response.status_code` as
the second positional argument of `ValidationError.__init__`, which is
its `errors` parameter. -/
theorem c2_status_code_lost :
    (_handle_response (some "tok-1") c2resp).2
      = .error ⟨.validation, "Validation failed", none, some (.int 422)⟩
    ∧ (none : Option Nat) ≠ some 422 := by
  refine ⟨rfl, by decide⟩

/-- C4 (counterexample): a response with status 600 is non-2xx and
outside 500–599, so by the claimed decision table it should raise the
generic `AltPEError`; `_handle_response` raises `ServerError` for it,
because its last guard is `status_code >= 500`, not `500 <= status <= 599`. -/
theorem c4_counterexample :
    (_handle_response none ⟨600, none, ""⟩).2
      = .error (ServerError.make "HTTP 600" (some 600))
    ∧ ErrKind.server ≠ ErrKind.altpe := by
  refine ⟨rfl, by decide⟩

/-- C4 (amended): `_handle_response` implements the decision table with
one amendment — any non-2xx status greater than or equal to 500 (not
only 500–599) raises `ServerError`.  Any 2xx response is returned
unchanged; 401 raises `AuthenticationError`, 404 `NotFoundError`,
422 `ValidationError`, 429 `RateLimitError`, status ≥ 500 `ServerError`,
and every other non-2xx status below 500 the generic `AltPEError`; the
raised message is the one extracted from the decoded error body, falling
back to the raw response text when the body does not decode, and to the
synthesized `"HTTP <code>"` string when the text is empty. -/
theorem c4_classifier_table (tok : Option String) (r : HttpResponse) :
    (isSuccess r.status_code = true → (_handle_response tok r).2 = .ok r)
    ∧ (isSuccess r.status_code = false →
        ∃ e : SDKError, (_handle_response tok r).2 = .error e
          ∧ e.message = extractMessage r
          ∧ e.kind =
              (if r.status_code = 401 then .authentication
               else if r.status_code = 404 then .notFound
               else if r.status_code = 422 then .validation
               else if r.status_code = 429 then .rateLimit
               else if 500 ≤ r.status_code then .server
               else .altpe))
    ∧ (decodeErrorResponse r.jsonBody = none → r.text ≠ "" →
        extractMessage r = r.text)
    ∧ (decodeErrorResponse r.jsonBody = none → r.text = "" →
        extractMessage r = "HTTP " ++ toString r.status_code) := by
  refine ⟨?_, ?_, ?_, ?_⟩
  · intro hs
    simp [_handle_response, hs]
  · intro hf
    simp only [_handle_response, hf, Bool.false_eq_true, if_false]
    by_cases h401 : r.status_code = 401
    · rw [h401]
      exact ⟨_, by rfl, rfl, by simp [AuthenticationError.make]⟩
    · rw [if_neg (by simpa using h401)]
      by_cases h404 : r.status_code = 404
      · rw [h404]
        exact ⟨_, by rfl, rfl, by simp [NotFoundError.make]⟩
      · rw [if_neg (by simpa using h404)]
        by_cases h422 : r.status_code = 422
        · rw [h422]
          exact ⟨_, by rfl, rfl, by simp [ValidationError.make]⟩
        · rw [if_neg (by simpa using h422)]
          by_cases h429 : r.status_code = 429
          · rw [h429]
            exact ⟨_, by rfl, rfl, by simp [RateLimitError.make]⟩
          · rw [if_neg (by simpa using h429)]
            by_cases h500 : 500 ≤ r.status_code
            · rw [if_pos (by simpa using h500)]
              refine ⟨_, by rfl, rfl, ?_⟩
              rw [if_neg h401, if_neg h404, if_neg h422, if_neg h429, if_pos h500]
              rfl
            · rw [if_neg (by simpa using h500)]
              refine ⟨_, by rfl, rfl, ?_⟩
              rw [if_neg h401, if_neg h404, if_neg h422, if_neg h429, if_neg h500]
              rfl
  · intro hd hne
    simp [extractMessage, hd, hne]
  · intro hd he
    simp [extractMessage, hd, he]

/-- C4 (witness for the amended table at concrete responses: a 2xx
pass-through, a 404 with raw-text fallback, and an empty-body 503 with
the synthesized message). -/
theorem c4_classifier_table_witness :
    (_handle_response none ⟨204, none, ""⟩).2 = .ok ⟨204, none, ""⟩
    ∧ (∃ e : SDKError, (_handle_response none ⟨404, none, "nope"⟩).2 = .error e
        ∧ e.message = extractMessage ⟨404, none, "nope"⟩
        ∧ e.kind = ErrKind.notFound)
    ∧ extractMessage ⟨404, none, "nope"⟩ = "nope"
    ∧ extractMessage ⟨503, none, ""⟩ = "HTTP " ++ toString 503 := by
  refine ⟨(c4_classifier_table none ⟨204, none, ""⟩).1 (by decide), ?_, ?_, ?_⟩
  · obtain ⟨e, he, hm, hk⟩ := (c4_classifier_table none ⟨404, none, "nope"⟩).2.1 (by decide)
    refine ⟨e, he, hm, ?_⟩
    rw [hk]
    norm_num
  · exact (c4_classifier_table none ⟨404, none, "nope"⟩).2.2.1 (by rfl) (by decide)
  · exact (c4_classifier_table none ⟨503, none, ""⟩).2.2.2 (by rfl) (by rfl)

/-- C5: on every response with status 401, `_handle_response` clears the
cached token (the new cache state is `None`) and raises
`AuthenticationError` carrying the extracted message and status 401;
and a subsequent `_get_token` call that finds no cached token performs
the credential-exchange network call (exactly one exchange request). -/
theorem c5_401_clears_token (tok : Option String) (r : HttpResponse)
    (h401 : r.status_code = 401) :
    (_handle_response tok r).1 = none
    ∧ (_handle_response tok r).2
        = .error (AuthenticationError.make (extractMessage r) (some 401))
    ∧ ∀ (resp : TokenEndpointResp) (logEnabled : Bool),
        (_get_token none resp logEnabled).calls = 1 := by
  refine ⟨?_, ?_, ?_⟩
  · simp [_handle_response, h401, isSuccess]
  · simp [_handle_response, h401, isSuccess]
  · intro resp logEnabled
    show (fetchToken none resp logEnabled).calls = 1
    unfold fetchToken
    by_cases h200 : resp.status_code == 200
    · rw [if_pos h200]
      cases resp.tokenField <;> rfl
    · rw [if_neg h200]
      by_cases h422 : resp.status_code == 422
      · rw [if_pos h422]
      · rw [if_neg h422]

/-- C5 (witness at a concrete 401 response). -/
theorem c5_401_clears_token_witness :
    (_handle_response (some "cached-tok") ⟨401, none, "expired"⟩).1 = none
    ∧ (_handle_response (some "cached-tok") ⟨401, none, "expired"⟩).2
        = .error (AuthenticationError.make
            (extractMessage ⟨401, none, "expired"⟩) (some 401))
    ∧ (_get_token none ⟨500, none, "boom"⟩ true).calls = 1 := by
  have h := c5_401_clears_token (some "cached-tok") ⟨401, none, "expired"⟩ rfl
  exact ⟨h.1, h.2.1, h.2.2 ⟨500, none, "boom"⟩ true⟩

/-- C6: when the cached token is absent (falsy), `_get_token` fails with
`AuthenticationError("Invalid client credentials")` on a 422 from the
exchange endpoint and with `AuthenticationError` carrying
`"Authentication failed: <raw body text>"` on any other non-200; on a
200 with a parsed token it returns the token and caches it — and in the
interleaving model, any caller that has performed the cache write and
still holds the lock (state before the release) already sees the cache
populated, so the token is cached before the lock is released. -/
theorem c6_token_exchange_contract (cached : Option String)
    (resp : TokenEndpointResp) (logEnabled : Bool)
    (hmiss : pyTruthy cached = false) :
    (resp.status_code = 422 →
        (_get_token cached resp logEnabled).result
          = .error (.auth (AuthenticationError.make "Invalid client credentials" none)))
    ∧ (resp.status_code ≠ 200 → resp.status_code ≠ 422 →
        (_get_token cached resp logEnabled).result
          = .error (.auth (AuthenticationError.make
              ("Authentication failed: " ++ resp.text) none)))
    ∧ (∀ t, resp.status_code = 200 → resp.tokenField = some t →
        (_get_token cached resp logEnabled).result = .ok t
        ∧ (_get_token cached resp logEnabled).newToken = some t)
    ∧ (∀ (m : Nat) (T : String) (s : TokSys.Sys m), T ≠ "" →
        TokSys.Reachable m T s → ∀ i, s.cs i = TokSys.CState.wroteTok →
        s.tok = some T) := by
  refine ⟨?_, ?_, ?_, ?_⟩
  · intro h422
    simp [_get_token, hmiss, fetchToken, h422]
  · intro hn200 hn422
    have hb : (resp.status_code == 200) = false := beq_eq_false_iff_ne.mpr hn200
    have hb' : (resp.status_code == 422) = false := beq_eq_false_iff_ne.mpr hn422
    simp [_get_token, hmiss, fetchToken, hb, hb']
  · intro t h200 htf
    refine ⟨?_, ?_⟩ <;> simp [_get_token, hmiss, fetchToken, h200, htf]
  · intro m T s hT hreach i hws
    have inv := TokSys.reach_inv hT hreach
    rcases inv.tokOK with h0 | h0
    · rcases inv.noneNoPost h0 i with h | h | h | h <;> rw [hws] at h <;> cases h
    · exact h0

/-- C6 (witness: concrete exchange responses, and a reachable one-caller
state holding the lock after the cache write). -/
theorem c6_token_exchange_contract_witness :
    (_get_token none ⟨422, none, "bad"⟩ true).result
      = .error (.auth (AuthenticationError.make "Invalid client credentials" none))
    ∧ (_get_token none ⟨503, none, "oops"⟩ true).result
      = .error (.auth (AuthenticationError.make
          ("Authentication failed: " ++ "oops") none))
    ∧ (_get_token none ⟨200, some "tok-9", "ok"⟩ true).result = .ok "tok-9"
    ∧ (_get_token none ⟨200, some "tok-9", "ok"⟩ true).newToken = some "tok-9"
    ∧ c6state.tok = some "tok-w" := by
  have h422 := (c6_token_exchange_contract none ⟨422, none, "bad"⟩ true rfl).1 rfl
  have h503 := (c6_token_exchange_contract none ⟨503, none, "oops"⟩ true rfl).2.1
    (by decide) (by decide)
  have h200 := (c6_token_exchange_contract none ⟨200, some "tok-9", "ok"⟩ true rfl).2.2.1
    "tok-9" rfl rfl
  have hreach : TokSys.Reachable 1 "tok-w" c6state := by
    have r0 : TokSys.Reachable 1 "tok-w" (TokSys.start 1) := Relation.ReflTransGen.refl
    have r1 := r0.tail (TokSys.Step.fastMiss _ 0 (by decide) (by decide))
    have r2 := r1.tail (TokSys.Step.acquire _ 0 (by decide) (by decide))
    have r3 := r2.tail (TokSys.Step.recheckMiss _ 0 (by decide) (by decide))
    have r4 := r3.tail (TokSys.Step.writeTok _ 0 (by decide))
    refine TokSys.reach_of_eq r4 (by decide) ?_ (by decide)
    intro i
    fin_cases i
    decide
  have hw := (c6_token_exchange_contract none ⟨422, none, "bad"⟩ true rfl).2.2.2
    1 "tok-w" c6state (by decide) hreach 0 (by decide)
  exact ⟨h422, h503, h200.1, h200.2, hw⟩

/-- C7: among `n ≥ 2` concurrent callers racing through `_get_token`
from an empty cache (exchange endpoint returning a nonempty token `T`),
every completed execution performed the credential exchange exactly once
and every caller returned the cached token `T` — no duplicate exchange,
no caller returns an absent or stale token. -/
theorem c7_single_flight (n : Nat) (T : String) (hn : 2 ≤ n) (hT : T ≠ "")
    (s : TokSys.Sys n) (hreach : TokSys.Reachable n T s)
    (hdone : ∀ i, ∃ t, s.cs i = TokSys.CState.done t) :
    s.exch = 1 ∧ ∀ i, s.cs i = TokSys.CState.done T := by
  have inv := TokSys.reach_inv hT hreach
  have hall : ∀ i, s.cs i = TokSys.CState.done T := by
    intro i
    obtain ⟨t, ht⟩ := hdone i
    have he := inv.doneT i t ht
    rw [he] at ht
    exact ht
  refine ⟨?_, hall⟩
  have hne : s.exch ≠ 0 := by
    intro h0
    obtain ⟨htn, _⟩ := inv.exchZero h0
    have hlt : 0 < n := by omega
    rcases inv.noneNoPost htn ⟨0, hlt⟩ with h | h | h | h <;>
      rw [hall ⟨0, hlt⟩] at h <;> cases h
  have hle := inv.exchLe
  omega

/-- C7 (witness: an explicit full interleaving of two callers from the
empty cache, reaching the all-done state with exactly one exchange). -/
theorem c7_single_flight_witness :
    c7final.exch = 1
    ∧ c7final.cs 0 = TokSys.CState.done "tok"
    ∧ c7final.cs 1 = TokSys.CState.done "tok" := by
  have hreach : TokSys.Reachable 2 "tok" c7final := by
    have r0 : TokSys.Reachable 2 "tok" (TokSys.start 2) := Relation.ReflTransGen.refl
    have r1 := r0.tail (TokSys.Step.fastMiss _ 0 (by decide) (by decide))
    have r2 := r1.tail (TokSys.Step.fastMiss _ 1 (by decide) (by decide))
    have r3 := r2.tail (TokSys.Step.acquire _ 0 (by decide) (by decide))
    have r4 := r3.tail (TokSys.Step.recheckMiss _ 0 (by decide) (by decide))
    have r5 := r4.tail (TokSys.Step.writeTok _ 0 (by decide))
    have r6 := r5.tail (TokSys.Step.finish _ 0 "tok" (by decide) (by decide))
    have r7 := r6.tail (TokSys.Step.acquire _ 1 (by decide) (by decide))
    have r8 := r7.tail (TokSys.Step.recheckHit _ 1 "tok" (by decide) (by decide)
      (by decide))
    refine TokSys.reach_of_eq r8 (by decide) ?_ (by decide)
    intro i
    fin_cases i <;> decide
  have h := c7_single_flight 2 "tok" (by omega) (by decide) c7final hreach
    (fun i => ⟨"tok", rfl⟩)
  exact ⟨h.1, h.2 0, h.2 1⟩

/-- C10: a failed credential exchange leaves the diagnostic log
unchanged: whenever `_get_token` runs the exchange (no truthy cached
token) and the endpoint answers any non-200 status, no log record is
appended (even with logging enabled), exactly one network call is made,
and the call raises instead of returning a token — the logging step sits
only inside the 200-success branch. -/
theorem c10_failed_exchange_not_logged (cached : Option String)
    (resp : TokenEndpointResp) (logEnabled : Bool)
    (hmiss : pyTruthy cached = false) (hfail : resp.status_code ≠ 200) :
    (_get_token cached resp logEnabled).logs = 0
    ∧ (_get_token cached resp logEnabled).calls = 1
    ∧ ∃ f, (_get_token cached resp logEnabled).result = .error f := by
  have hb : (resp.status_code == 200) = false := beq_eq_false_iff_ne.mpr hfail
  simp only [_get_token, hmiss, Bool.false_eq_true, if_false]
  unfold fetchToken
  rw [if_neg (by simp [hb])]
  by_cases h422 : (resp.status_code == 422) = true
  · rw [if_pos h422]
    exact ⟨rfl, rfl, _, rfl⟩
  · rw [if_neg h422]
    exact ⟨rfl, rfl, _, rfl⟩

/-- C10 (witness at a concrete failed exchange with logging enabled). -/
theorem c10_failed_exchange_not_logged_witness :
    (_get_token none ⟨503, none, "boom"⟩ true).logs = 0
    ∧ (_get_token none ⟨503, none, "boom"⟩ true).calls = 1 := by
  have h := c10_failed_exchange_not_logged none ⟨503, none, "boom"⟩ true rfl (by decide)
  exact ⟨h.1, h.2.1⟩

/-- C8 (evaluation at the failing input): the async `get_companies`
clamps `limit=500` to 100 and the sync `get_funds` does too, but the
sync `get_companies` sends `limit=500` through unclamped — the sync
client omits the `min(limit, 100)` clamp in every list method except
`get_funds`. -/
theorem c8_sync_clamp_missing :
    AlternativesPE.get_companies_page 500 0 = (500, 0)
    ∧ AsyncAlternativesPE.get_companies_page 500 0 = (100, 0)
    ∧ AlternativesPE.get_funds_page 500 0 = (100, 0)
    ∧ (500 : Int) ≠ 100 := by
  refine ⟨rfl, by decide, by decide, by decide⟩

/-- C9: the limit clamp is one-sided: for every integer limit at most
100 — zero and negative values included — each embedded list method
(async `get_companies` / `get_funds`, sync `get_companies` /
`get_funds`) sends the limit exactly as given and passes the offset
through unchanged; `min(limit, 100)` imposes no lower bound and rejects
nothing. -/
theorem c9_no_lower_clamp (limit offset : Int) (hle : limit ≤ 100) :
    AsyncAlternativesPE.get_companies_page limit offset = (limit, offset)
    ∧ AsyncAlternativesPE.get_funds_page limit offset = (limit, offset)
    ∧ AlternativesPE.get_funds_page limit offset = (limit, offset)
    ∧ AlternativesPE.get_companies_page limit offset = (limit, offset) := by
  have hmin : min limit 100 = limit := min_eq_left hle
  exact ⟨by simp [AsyncAlternativesPE.get_companies_page, hmin],
         by simp [AsyncAlternativesPE.get_funds_page, hmin],
         by simp [AlternativesPE.get_funds_page, hmin],
         rfl⟩

/-- C3: every diagnostic log entry built by `_build_log_entry` is
sensitive-free — in every object nested anywhere in its request fields
(params, body, headers) and in its redacted response JSON, each key
case-insensitively equal to authorization, client_id, client_secret or
token carries the redaction marker — and, concretely, logging a token
exchange whose form data contains `client_secret: "abc"` produces an
entry in which the character sequence `abc` occurs nowhere (no string
leaf, no key, no rendered leaf contains it). -/
theorem c3_log_redaction :
    (∀ (ts m u : String) (p d h : Option JVal) (resp : HttpResponse),
        sensFree (_build_log_entry ts m u p d h resp) = true)
    ∧ occursIn "abc".data
        (_build_log_entry "2026-01-01T00:00:00+00:00" "POST" "/api/v2/oauth/token"
          none
          (some (.obj [("client_id", .str "id-1"), ("client_secret", .str "abc")]))
          (some (.obj [("Content-Type", .str "application/x-www-form-urlencoded")]))
          ⟨200, some (.obj [("token", .str "tok-123")]), ""⟩) = false := by
  refine ⟨sensFree_build_log_entry, by decide⟩

/-- C9 (witness at a negative limit). -/
theorem c9_no_lower_clamp_witness :
    AsyncAlternativesPE.get_companies_page (-5) 7 = (-5, 7)
    ∧ AlternativesPE.get_funds_page 0 3 = (0, 3) := by
  exact ⟨(c9_no_lower_clamp (-5) 7 (by norm_num)).1,
         (c9_no_lower_clamp 0 3 (by norm_num)).2.2.1⟩

end AltPE
